import Mathlib

/-!
Shallow embedding of the Move modules `trade_apt::trade_apt` (file
`contract/sources/trade_apt.move`) and `trade_apt::price_oracle` (file
`contract/sources/price_oracle.move`) of the Trade.apt repository, together
with proofs about the order ledger, the alert registry, the condition
evaluator and the price cache.

Modelling conventions:
* Move `u64` values are modelled as `Nat`.  Move aborts on arithmetic
  overflow and underflow instead of wrapping; the additions performed by the
  embedded functions are modelled as unbounded `Nat` additions, and the one
  subtraction (`now - last_update` in the oracle views) is only used under a
  hypothesis that rules underflow out.
* Move addresses are modelled as `Nat`; `String` stays `String`.
* A Move `entry` function either aborts (`assert!` failure or a missing
  global resource) or commits all of its writes.  Each embedded function
  returns `Except MoveErr St`: `.ok st` is the committed post-state and
  `.error e` is an abort, after which the chain state is unchanged (the
  Move VM discards every write of an aborted transaction).
* Event emission has no effect on the stored state and is not modelled.
* `vector<T>` is `List T`; the Move loops `find_order`, `find_alert` and
  `find_feed` all scan a vector front to back for the first element whose
  key matches and return `(found, index)`; they are instances of the
  generic `scan_from` below, applied to the respective key projections.
-/

/-- Outcome of a Move abort: either an `assert!` with an error code from the
module, or the VM abort raised by `borrow_global_mut` on a missing
resource. -/
inductive MoveErr where
  | abort (code : Nat)
  | missingResource
deriving DecidableEq

-- ============================================================
-- Generic first-match scan, the shape of the three Move find loops
-- ============================================================

/-- Generic form of the Move loops `find_order`, `find_alert`, `find_feed`:
scan the list front to back, returning `(true, index)` at the first element
whose key equals `target`, and `(false, 0)` when none matches.  The `i`
argument is the loop counter (the absolute index of the head of the
remaining list). -/
def scan_from {α κ : Type} [DecidableEq κ] (key : α → κ) (target : κ) :
    List α → Nat → Bool × Nat
  | [], _ => (false, 0)
  | x :: rest, i =>
      if key x = target then (true, i) else scan_from key target rest (i + 1)

theorem scan_from_lb {α κ : Type} [DecidableEq κ] (key : α → κ) (target : κ) :
    ∀ (xs : List α) (k j : Nat), scan_from key target xs k = (true, j) → k ≤ j := by
  intro xs
  induction xs with
  | nil => intro k j h; simp [scan_from] at h
  | cons x rest ih =>
      intro k j h
      by_cases hx : key x = target
      · simp [scan_from, hx] at h
        omega
      · simp [scan_from, hx] at h
        have := ih (k + 1) j h
        omega

theorem scan_from_true {α κ : Type} [DecidableEq κ] (key : α → κ) (target : κ) :
    ∀ (xs : List α) (k i : Nat), scan_from key target xs k = (true, k + i) →
      ∃ x, xs[i]? = some x ∧ key x = target := by
  intro xs
  induction xs with
  | nil => intro k i h; simp [scan_from] at h
  | cons x rest ih =>
      intro k i h
      by_cases hx : key x = target
      · simp [scan_from, hx] at h
        have hi : i = 0 := by omega
        subst hi
        exact ⟨x, by simp, hx⟩
      · simp [scan_from, hx] at h
        have hlb := scan_from_lb key target rest (k + 1) (k + i) h
        cases i with
        | zero => omega
        | succ i' =>
            have h' : scan_from key target rest (k + 1) = (true, (k + 1) + i') := by
              rw [show (k + 1) + i' = k + (i' + 1) from by omega]
              exact h
            obtain ⟨y, hy, hky⟩ := ih (k + 1) i' h'
            exact ⟨y, by simpa using hy, hky⟩

theorem scan_from_false {α κ : Type} [DecidableEq κ] (key : α → κ) (target : κ) :
    ∀ (xs : List α) (k m : Nat), scan_from key target xs k = (false, m) →
      ∀ x ∈ xs, key x ≠ target := by
  intro xs
  induction xs with
  | nil => intro k m _ x hx; simp at hx
  | cons x rest ih =>
      intro k m h y hy
      by_cases hx : key x = target
      · simp [scan_from, hx] at h
      · simp [scan_from, hx] at h
        rcases List.mem_cons.mp hy with hy | hy
        · subst hy; exact hx
        · exact ih (k + 1) m h y hy

/-- Replacing the element at position `i` by one with the same key leaves the
scan result unchanged (for every target). -/
theorem scan_from_set_congr {α κ : Type} [DecidableEq κ] (key : α → κ) (target : κ) :
    ∀ (xs : List α) (i : Nat) (x y : α), xs[i]? = some x → key y = key x →
      ∀ k, scan_from key target (xs.set i y) k = scan_from key target xs k := by
  intro xs
  induction xs with
  | nil => intro i x y hx _ _; simp at hx
  | cons z rest ih =>
      intro i x y hx hkey k
      match i with
      | 0 =>
          have hzx : z = x := by simpa using hx
          subst hzx
          rw [List.set_cons_zero]
          simp only [scan_from]
          rw [hkey]
      | i' + 1 =>
          have hx' : rest[i']? = some x := by simpa using hx
          rw [List.set_cons_succ]
          simp only [scan_from]
          rw [ih i' x y hx' hkey (k + 1)]

/-- Appending elements does not change the result of a successful scan. -/
theorem scan_from_append {α κ : Type} [DecidableEq κ] (key : α → κ) (target : κ) :
    ∀ (xs ys : List α) (k j : Nat), scan_from key target xs k = (true, j) →
      scan_from key target (xs ++ ys) k = (true, j) := by
  intro xs
  induction xs with
  | nil => intro ys k j h; simp [scan_from] at h
  | cons x rest ih =>
      intro ys k j h
      by_cases hx : key x = target
      · simp [scan_from, hx] at h ⊢
        exact h
      · simp [scan_from, hx] at h ⊢
        exact ih ys (k + 1) j h

/-- A successful scan starting at counter 0 returns an in-range index whose
element has the target key. -/
theorem scan_from_zero_true {α κ : Type} [DecidableEq κ] (key : α → κ) (target : κ)
    (xs : List α) (i : Nat) (h : scan_from key target xs 0 = (true, i)) :
    ∃ x, xs[i]? = some x ∧ key x = target := by
  have := scan_from_true key target xs 0 i (by simpa using h)
  exact this

-- ============================================================
-- Association lists: the map address → global resource
-- ============================================================

/-- Lookup in the address-indexed global storage (Move `borrow_global` /
`exists`): first binding of the address wins. -/
def alist_get {β : Type} : List (Nat × β) → Nat → Option β
  | [], _ => none
  | (k, v) :: rest, a => if k = a then some v else alist_get rest a

/-- Update or insert a binding (Move `borrow_global_mut` write-back /
`move_to`). -/
def alist_set {β : Type} : List (Nat × β) → Nat → β → List (Nat × β)
  | [], a, v => [(a, v)]
  | (k, w) :: rest, a, v =>
      if k = a then (a, v) :: rest else (k, w) :: alist_set rest a v

theorem alist_get_set_self {β : Type} :
    ∀ (l : List (Nat × β)) (a : Nat) (v : β), alist_get (alist_set l a v) a = some v := by
  intro l
  induction l with
  | nil => intro a v; simp [alist_get, alist_set]
  | cons p rest ih =>
      intro a v
      obtain ⟨k, w⟩ := p
      by_cases hk : k = a
      · simp [alist_get, alist_set, hk]
      · simp [alist_get, alist_set, hk]
        exact ih a v

theorem alist_get_set_ne {β : Type} :
    ∀ (l : List (Nat × β)) (a b : Nat) (v : β), a ≠ b →
      alist_get (alist_set l a v) b = alist_get l b := by
  intro l
  induction l with
  | nil => intro a b v hab; simp [alist_get, alist_set, hab]
  | cons p rest ih =>
      intro a b v hab
      obtain ⟨k, w⟩ := p
      by_cases hk : k = a
      · subst hk
        simp [alist_get, alist_set, hab]
      · by_cases hkb : k = b
        · have hba : b ≠ a := fun hba => hab hba.symm
          simp [alist_get, alist_set, hk, hkb, hba]
        · simp [alist_get, alist_set, hk, hkb]
          exact ih a b v hab

-- ============================================================
-- List helper: writing back the value just read is a no-op
-- ============================================================

theorem list_set_self {α : Type} :
    ∀ (xs : List α) (i : Nat) (x : α), xs[i]? = some x → xs.set i x = xs := by
  intro xs
  induction xs with
  | nil => intro i x h; simp at h
  | cons z rest ih =>
      intro i x h
      match i with
      | 0 => simp at h; simp [List.set, h]
      | i' + 1 =>
          simp at h
          simp [List.set, ih i' x h]

-- ============================================================
-- Module trade_apt::trade_apt — constants (trade_apt.move, lines 19-40)
-- ============================================================

namespace TradeApt

def E_NOT_INITIALIZED : Nat := 1
def E_ALREADY_INITIALIZED : Nat := 2
def E_INSUFFICIENT_BALANCE : Nat := 3
def E_INVALID_AMOUNT : Nat := 4
def E_ORDER_NOT_FOUND : Nat := 5
def E_UNAUTHORIZED : Nat := 6
def E_INVALID_CONDITION : Nat := 7
def E_ORDER_EXPIRED : Nat := 8
def E_SLIPPAGE_EXCEEDED : Nat := 9

def CONDITION_PRICE_ABOVE : Nat := 1
def CONDITION_PRICE_BELOW : Nat := 2
def CONDITION_IMMEDIATE : Nat := 3

def ORDER_STATUS_PENDING : Nat := 1
def ORDER_STATUS_EXECUTED : Nat := 2
def ORDER_STATUS_CANCELLED : Nat := 3
def ORDER_STATUS_EXPIRED : Nat := 4

-- ============================================================
-- Structs (trade_apt.move, lines 47-100)
-- ============================================================

/-- Struct `TradeAptState` (global protocol counters, stored at the module
address). -/
structure TradeAptState where
  total_trades : Nat
  total_volume_apt : Nat
  total_orders_created : Nat
  admin : Nat
deriving DecidableEq

/-- Struct `UserAccount` (per-address trading account). -/
structure UserAccount where
  orders : List Nat
  total_trades : Nat
  total_volume : Nat
  created_at : Nat
deriving DecidableEq

/-- Struct `ConditionalOrder`. -/
structure ConditionalOrder where
  order_id : Nat
  owner : Nat
  token_in : String
  token_out : String
  amount_in : Nat
  min_amount_out : Nat
  condition_type : Nat
  target_price : Nat
  status : Nat
  created_at : Nat
  expires_at : Nat
  executed_at : Nat
deriving DecidableEq

/-- Struct `OrderBook` (stored at the module address). -/
structure OrderBook where
  orders : List ConditionalOrder
  next_order_id : Nat
deriving DecidableEq

/-- Struct `PriceAlert`. -/
structure PriceAlert where
  alert_id : Nat
  owner : Nat
  token : String
  condition_type : Nat
  target_price : Nat
  is_active : Bool
  created_at : Nat
  triggered_at : Nat
deriving DecidableEq

/-- Struct `UserAlerts` (per-address alert registry). -/
structure UserAlerts where
  alerts : List PriceAlert
  next_alert_id : Nat
deriving DecidableEq

/-- The global resources that the order functions touch: the `OrderBook` and
`TradeAptState` resources at the module address (the model assumes
`initialize` has run, so both exist) and the per-address `UserAccount`
resources.  The `UserAlerts` resources live in a separate state (below);
no claim relates the two families. -/
structure GlobalState where
  order_book : OrderBook
  user_accounts : List (Nat × UserAccount)
  trade_state : TradeAptState
deriving DecidableEq

-- ============================================================
-- Helper functions (trade_apt.move, lines 548-586)
-- ============================================================

/-- Function `find_order` (lines 548-559): scan the order vector for the
first order with the given id, returning `(found, index)`. -/
def find_order (orders : List ConditionalOrder) (order_id : Nat) : Bool × Nat :=
  scan_from (fun o => o.order_id) order_id orders 0

/-- Function `find_alert` (lines 561-572). -/
def find_alert (alerts : List PriceAlert) (alert_id : Nat) : Bool × Nat :=
  scan_from (fun a => a.alert_id) alert_id alerts 0

/-- Function `calculate_swap_output` (lines 575-579): simulated DEX rate,
`(amount_in * 850 * 997) / (100 * 1000)`. -/
def calculate_swap_output (amount_in : Nat) : Nat :=
  (amount_in * 850 * 997) / (100 * 1000)

/-- The condition check inlined identically in `execute_conditional_order`
(lines 367-371) and `trigger_alert` (lines 471-475):
`if (condition_type == CONDITION_PRICE_BELOW) { current_price <= target }
else { current_price >= target }`.  Note the else branch covers every
condition type other than BELOW, including IMMEDIATE. -/
def condition_met_check (condition_type target_price current_price : Nat) : Bool :=
  if condition_type = CONDITION_PRICE_BELOW then
    decide (current_price ≤ target_price)
  else
    decide (current_price ≥ target_price)

-- ============================================================
-- Entry functions on orders (trade_apt.move, lines 258-401)
-- ============================================================

/-- Function `init_user_account` (lines 189-207), restricted to the
`UserAccount` resource it creates (it also creates an empty `UserAlerts`,
which lives in the separate alerts state below). -/
def init_user_account (accounts : List (Nat × UserAccount)) (user_addr now : Nat) :
    List (Nat × UserAccount) :=
  match alist_get accounts user_addr with
  | some _ => accounts
  | none =>
      alist_set accounts user_addr
        { orders := [], total_trades := 0, total_volume := 0, created_at := now }

/-- Entry function `create_conditional_order` (lines 258-323).  `now` is
`timestamp::now_seconds()` at the time of the call. -/
def create_conditional_order (gs : GlobalState) (user_addr : Nat)
    (token_in token_out : String)
    (amount_in min_amount_out condition_type target_price duration_seconds now : Nat) :
    Except MoveErr GlobalState :=
  if ¬ amount_in > 0 then .error (.abort E_INVALID_AMOUNT)
  else if ¬ (condition_type = CONDITION_PRICE_ABOVE ∨
             condition_type = CONDITION_PRICE_BELOW) then
    .error (.abort E_INVALID_CONDITION)
  else
    let accounts := init_user_account gs.user_accounts user_addr now
    let order_id := gs.order_book.next_order_id
    let order : ConditionalOrder :=
      { order_id := order_id
        owner := user_addr
        token_in := token_in
        token_out := token_out
        amount_in := amount_in
        min_amount_out := min_amount_out
        condition_type := condition_type
        target_price := target_price
        status := ORDER_STATUS_PENDING
        created_at := now
        expires_at := now + duration_seconds
        executed_at := 0 }
    let order_book : OrderBook :=
      { orders := gs.order_book.orders ++ [order], next_order_id := order_id + 1 }
    match alist_get accounts user_addr with
    | none => .error .missingResource
    | some acct =>
        .ok { order_book := order_book
              user_accounts :=
                alist_set accounts user_addr { acct with orders := acct.orders ++ [order_id] }
              trade_state :=
                { gs.trade_state with
                    total_orders_created := gs.trade_state.total_orders_created + 1 } }

/-- Entry function `cancel_order` (lines 326-347). -/
def cancel_order (gs : GlobalState) (user_addr order_id : Nat) :
    Except MoveErr GlobalState :=
  match find_order gs.order_book.orders order_id with
  | (false, _) => .error (.abort E_ORDER_NOT_FOUND)
  | (true, index) =>
      match gs.order_book.orders[index]? with
      | none => .error (.abort E_ORDER_NOT_FOUND)
      | some order =>
          if ¬ order.owner = user_addr then .error (.abort E_UNAUTHORIZED)
          else if ¬ order.status = ORDER_STATUS_PENDING then
            .error (.abort E_ORDER_NOT_FOUND)
          else
            .ok { gs with
                  order_book :=
                    { gs.order_book with
                        orders := gs.order_book.orders.set index
                          { order with status := ORDER_STATUS_CANCELLED } } }

/-- Entry function `execute_conditional_order` (lines 350-401).  The
executor signer plays no role in the logic (any account may execute).
`current_price` is the caller-supplied observed price and `now` is
`timestamp::now_seconds()`.  When the order found is in `PENDING` status,
not expired, its condition is met and the slippage floor holds, the order
is flipped to `EXECUTED` and the owner and protocol counters are bumped;
`borrow_global_mut<UserAccount>(order.owner)` aborts if the owner has no
account resource. -/
def execute_conditional_order (gs : GlobalState) (order_id current_price now : Nat) :
    Except MoveErr GlobalState :=
  match find_order gs.order_book.orders order_id with
  | (false, _) => .error (.abort E_ORDER_NOT_FOUND)
  | (true, index) =>
      match gs.order_book.orders[index]? with
      | none => .error (.abort E_ORDER_NOT_FOUND)
      | some order =>
          if ¬ order.status = ORDER_STATUS_PENDING then .error (.abort E_ORDER_NOT_FOUND)
          else if ¬ now ≤ order.expires_at then .error (.abort E_ORDER_EXPIRED)
          else if ¬ condition_met_check order.condition_type order.target_price current_price
            then .error (.abort E_INVALID_CONDITION)
          else if calculate_swap_output order.amount_in < order.min_amount_out then
            .error (.abort E_SLIPPAGE_EXCEEDED)
          else
            match alist_get gs.user_accounts order.owner with
            | none => .error .missingResource
            | some acct =>
                .ok { order_book :=
                        { gs.order_book with
                            orders := gs.order_book.orders.set index
                              { order with
                                  status := ORDER_STATUS_EXECUTED
                                  executed_at := now } }
                      user_accounts :=
                        alist_set gs.user_accounts order.owner
                          { acct with
                              total_trades := acct.total_trades + 1
                              total_volume := acct.total_volume + order.amount_in }
                      trade_state :=
                        { gs.trade_state with
                            total_trades := gs.trade_state.total_trades + 1
                            total_volume_apt :=
                              gs.trade_state.total_volume_apt + order.amount_in } }

-- ============================================================
-- View function get_pending_orders_count (lines 528-542)
-- ============================================================

/-- The `while` loop of `get_pending_orders_count`: walk the order vector
accumulating `count`. -/
def pending_count_loop : List ConditionalOrder → Nat → Nat
  | [], count => count
  | o :: rest, count =>
      pending_count_loop rest
        (if o.status = ORDER_STATUS_PENDING then count + 1 else count)

/-- View function `get_pending_orders_count` (lines 528-542). -/
def get_pending_orders_count (gs : GlobalState) : Nat :=
  pending_count_loop gs.order_book.orders 0

-- ============================================================
-- Derived observation and operation sequences
-- ============================================================

/-- Status of the order that `find_order` locates for `order_id` (the first
record in the book with that id), if any. -/
def order_status (gs : GlobalState) (order_id : Nat) : Option Nat :=
  match find_order gs.order_book.orders order_id with
  | (false, _) => none
  | (true, index) =>
      match gs.order_book.orders[index]? with
      | none => none
      | some order => some order.status

/-- One call to any of the three order entry functions, with all of its
arguments. -/
inductive OrderOp where
  | create (user_addr : Nat) (token_in token_out : String)
      (amount_in min_amount_out condition_type target_price duration_seconds now : Nat)
  | cancel (user_addr order_id : Nat)
  | execute (order_id current_price now : Nat)

/-- Chain-level effect of a call: a committed call replaces the state, an
aborted call leaves it unchanged. -/
def applyOrderOp (gs : GlobalState) : OrderOp → GlobalState
  | .create u tin tout ai mao ct tp ds now =>
      match create_conditional_order gs u tin tout ai mao ct tp ds now with
      | .ok gs' => gs'
      | .error _ => gs
  | .cancel u oid =>
      match cancel_order gs u oid with
      | .ok gs' => gs'
      | .error _ => gs
  | .execute oid p now =>
      match execute_conditional_order gs oid p now with
      | .ok gs' => gs'
      | .error _ => gs

/-- State established by `initialize` (lines 170-186): empty order book with
`next_order_id = 1`, zeroed protocol counters, no user accounts. -/
def initGlobalState (admin : Nat) : GlobalState :=
  { order_book := { orders := [], next_order_id := 1 }
    user_accounts := []
    trade_state :=
      { total_trades := 0, total_volume_apt := 0, total_orders_created := 0
        admin := admin } }

end TradeApt

namespace TradeApt

-- ============================================================
-- Alert entry functions (trade_apt.move, lines 408-507)
-- ============================================================

/-- The per-address `UserAlerts` resources (the only global state the alert
functions touch). -/
def AlertsState : Type := List (Nat × UserAlerts)

/-- Entry function `create_alert` (lines 408-453).  The registry written is
the one at the caller's own address, created on the fly when absent. -/
def create_alert (st : AlertsState) (user_addr : Nat) (token : String)
    (condition_type target_price now : Nat) : Except MoveErr AlertsState :=
  if ¬ (condition_type = CONDITION_PRICE_ABOVE ∨
        condition_type = CONDITION_PRICE_BELOW) then
    .error (.abort E_INVALID_CONDITION)
  else
    let st' : AlertsState :=
      match alist_get st user_addr with
      | some _ => st
      | none => alist_set st user_addr { alerts := [], next_alert_id := 1 }
    match alist_get st' user_addr with
    | none => .error .missingResource
    | some ua =>
        let alert_id := ua.next_alert_id
        let alert : PriceAlert :=
          { alert_id := alert_id
            owner := user_addr
            token := token
            condition_type := condition_type
            target_price := target_price
            is_active := true
            created_at := now
            triggered_at := 0 }
        .ok (alist_set st' user_addr
          { alerts := ua.alerts ++ [alert], next_alert_id := alert_id + 1 })

/-- Entry function `trigger_alert` (lines 456-490).  `user_addr` is a plain
argument (the alert owner's address), not the signer; the executor signer is
unused. -/
def trigger_alert (st : AlertsState) (user_addr alert_id current_price now : Nat) :
    Except MoveErr AlertsState :=
  match alist_get st user_addr with
  | none => .error .missingResource
  | some ua =>
      match find_alert ua.alerts alert_id with
      | (false, _) => .error (.abort E_ORDER_NOT_FOUND)
      | (true, index) =>
          match ua.alerts[index]? with
          | none => .error (.abort E_ORDER_NOT_FOUND)
          | some alert =>
              if ¬ alert.is_active then .error (.abort E_ORDER_NOT_FOUND)
              else if ¬ condition_met_check alert.condition_type alert.target_price
                  current_price then
                .error (.abort E_INVALID_CONDITION)
              else
                .ok (alist_set st user_addr
                  { ua with
                      alerts := ua.alerts.set index
                        { alert with is_active := false, triggered_at := now } })

/-- Entry function `cancel_alert` (lines 493-507).  Note that
`borrow_global_mut<UserAlerts>(user_addr)` borrows the registry at the
CALLER's address, so the lookup only ever sees the caller's own alerts. -/
def cancel_alert (st : AlertsState) (user_addr alert_id : Nat) :
    Except MoveErr AlertsState :=
  match alist_get st user_addr with
  | none => .error .missingResource
  | some ua =>
      match find_alert ua.alerts alert_id with
      | (false, _) => .error (.abort E_ORDER_NOT_FOUND)
      | (true, index) =>
          match ua.alerts[index]? with
          | none => .error (.abort E_ORDER_NOT_FOUND)
          | some alert =>
              if ¬ alert.owner = user_addr then .error (.abort E_UNAUTHORIZED)
              else
                .ok (alist_set st user_addr
                  { ua with
                      alerts := ua.alerts.set index { alert with is_active := false } })

/-- Registry-ownership invariant: every alert stored in the registry at
address `a` has `owner = a`.  It holds in every reachable state because
`create_alert` only ever appends an alert with `owner := user_addr` to the
registry at `user_addr`, and the other two functions preserve owners. -/
def AlertsInv (st : AlertsState) : Prop :=
  ∀ a ua, alist_get st a = some ua → ∀ al ∈ ua.alerts, al.owner = a

end TradeApt

-- ============================================================
-- Module trade_apt::price_oracle (price_oracle.move)
-- ============================================================

namespace PriceOracle

def E_PRICE_STALE : Nat := 1
def E_INVALID_PRICE : Nat := 2
def E_UNAUTHORIZED : Nat := 3
def E_FEED_NOT_FOUND : Nat := 4

/-- Constant `MAX_PRICE_AGE` (line 26): maximum age of price data in
seconds. -/
def MAX_PRICE_AGE : Nat := 60

/-- Struct `PriceData` (lines 36-41). -/
structure PriceData where
  price : Nat
  confidence : Nat
  timestamp : Nat
  expo : Nat
deriving DecidableEq

/-- Struct `PriceFeed` (lines 51-56). -/
structure PriceFeed where
  token : String
  price_data : PriceData
  pyth_feed_id : List Nat
  is_active : Bool
deriving DecidableEq

/-- Struct `OracleConfig` (lines 44-48): the resource at `oracle_addr`.  All
oracle functions below act on one such resource (they abort before touching
anything when it is absent, so the model takes it as given). -/
structure OracleConfig where
  admin : Nat
  keepers : List Nat
  price_cache : List PriceFeed
deriving DecidableEq

/-- Function `is_keeper` (lines 219-229). -/
def is_keeper : List Nat → Nat → Bool
  | [], _ => false
  | k :: rest, addr => if k = addr then true else is_keeper rest addr

/-- Function `find_feed` (lines 231-242). -/
def find_feed (feeds : List PriceFeed) (token : String) : Bool × Nat :=
  scan_from (fun f => f.token) token feeds 0

/-- State established by `initialize(admin)` (lines 75-86): the admin is the
sole keeper and the cache is empty. -/
def initOracleConfig (admin : Nat) : OracleConfig :=
  { admin := admin, keepers := [admin], price_cache := [] }

/-- Entry function `update_price` (lines 105-148): keeper-gated single price
write; overwrites the feed for `token` if present, else appends a new
feed. -/
def update_price (config : OracleConfig) (keeper_addr : Nat) (token : String)
    (price confidence now : Nat) : Except MoveErr OracleConfig :=
  if ¬ is_keeper config.keepers keeper_addr then .error (.abort E_UNAUTHORIZED)
  else if ¬ price > 0 then .error (.abort E_INVALID_PRICE)
  else
    let price_data : PriceData :=
      { price := price, confidence := confidence, timestamp := now, expo := 8 }
    match find_feed config.price_cache token with
    | (true, index) =>
        match config.price_cache[index]? with
        | none => .error (.abort E_FEED_NOT_FOUND)
        | some feed =>
            .ok { config with
                  price_cache :=
                    config.price_cache.set index { feed with price_data := price_data } }
    | (false, _) =>
        .ok { config with
              price_cache :=
                config.price_cache ++
                  [{ token := token, price_data := price_data,
                     pyth_feed_id := [], is_active := true }] }

/-- The `while` loop of `batch_update_prices` (lines 162-170): apply
`update_price` to the i-th token, price and confidence in turn; the first
abort aborts the whole call.  After the equal-length asserts the indexed
loop is exactly this zipped recursion. -/
def batch_loop (keeper_addr : Nat) (now : Nat) :
    OracleConfig → List ((String × Nat) × Nat) → Except MoveErr OracleConfig
  | config, [] => .ok config
  | config, ((token, price), confidence) :: rest =>
      match update_price config keeper_addr token price confidence now with
      | .ok config' => batch_loop keeper_addr now config' rest
      | .error e => .error e

/-- Entry function `batch_update_prices` (lines 151-171). -/
def batch_update_prices (config : OracleConfig) (keeper_addr : Nat)
    (tokens : List String) (prices confidences : List Nat) (now : Nat) :
    Except MoveErr OracleConfig :=
  if ¬ tokens.length = prices.length then .error (.abort E_INVALID_PRICE)
  else if ¬ tokens.length = confidences.length then .error (.abort E_INVALID_PRICE)
  else batch_loop keeper_addr now config ((tokens.zip prices).zip confidences)

/-- View function `get_price` (lines 177-189): returns
`(price, confidence, last_update)` and `(0, 0, 0)` when the token has no
feed. -/
def get_price (config : OracleConfig) (token : String) : Nat × Nat × Nat :=
  match find_feed config.price_cache token with
  | (false, _) => (0, 0, 0)
  | (true, index) =>
      match config.price_cache[index]? with
      | none => (0, 0, 0)
      | some feed =>
          (feed.price_data.price, feed.price_data.confidence, feed.price_data.timestamp)

/-- View function `is_price_fresh` (lines 193-201). -/
def is_price_fresh (config : OracleConfig) (token : String) (now : Nat) : Bool :=
  let last_update := (get_price config token).2.2
  if last_update = 0 then false
  else decide (now - last_update ≤ MAX_PRICE_AGE)

/-- View function `get_price_safe` (lines 205-213): one `get_price` read
supplies both the price and the freshness flag. -/
def get_price_safe (config : OracleConfig) (token : String) (now : Nat) : Nat × Bool :=
  let r := get_price config token
  let is_fresh : Bool :=
    if r.2.2 = 0 then false
    else decide (now - r.2.2 ≤ MAX_PRICE_AGE)
  (r.1, is_fresh)

/-- Whether the cache holds a feed for `token` (the `found` component of
`find_feed`). -/
def has_feed (feeds : List PriceFeed) (token : String) : Bool :=
  (find_feed feeds token).1

end PriceOracle

namespace TradeApt

-- ============================================================
-- Inversion lemmas for the order entry functions
-- ============================================================

/-- Successful `create_conditional_order` appends one order to the book. -/
theorem create_ok_orders (gs : GlobalState) (u : Nat) (tin tout : String)
    (ai mao ct tp ds now : Nat) (gs' : GlobalState)
    (h : create_conditional_order gs u tin tout ai mao ct tp ds now = .ok gs') :
    ∃ o : ConditionalOrder,
      gs'.order_book.orders = gs.order_book.orders ++ [o] := by
  unfold create_conditional_order at h
  split at h
  · simp at h
  · split at h
    · simp at h
    · rcases haq : alist_get (init_user_account gs.user_accounts u now) u with _ | acct
      · simp only [haq] at h
        simp at h
      · simp only [haq, Except.ok.injEq] at h
        exact ⟨_, by rw [← h]⟩

/-- Inversion of a successful `cancel_order`: the book holds a `PENDING`
order with the given id, owned by the caller, and the only change is that
order's status becoming `CANCELLED`. -/
theorem cancel_ok_inv (gs : GlobalState) (u oid : Nat) (gs' : GlobalState)
    (h : cancel_order gs u oid = .ok gs') :
    ∃ i o, find_order gs.order_book.orders oid = (true, i) ∧
      gs.order_book.orders[i]? = some o ∧ o.order_id = oid ∧
      o.owner = u ∧ o.status = ORDER_STATUS_PENDING ∧
      gs' = { gs with order_book := { gs.order_book with
                orders := gs.order_book.orders.set i
                  { o with status := ORDER_STATUS_CANCELLED } } } := by
  unfold cancel_order at h
  split at h
  · simp at h
  · rename_i index hfo
    split at h
    · simp at h
    · rename_i o hgo
      split at h
      · simp at h
      · split at h
        · simp at h
        · rename_i hown hst
          obtain ⟨q, hq, hqid⟩ := scan_from_zero_true _ _ _ _ hfo
          rw [hgo] at hq
          have hoq : o = q := by injection hq
          have hgs := (Except.ok.injEq _ _).mp h
          exact ⟨index, o, hfo, hgo, hoq ▸ hqid, not_not.mp hown,
                 not_not.mp hst, hgs.symm⟩

/-- Inversion of a successful `execute_conditional_order`: the book holds a
`PENDING`, unexpired order with the given id whose condition and slippage
checks pass, the owner has an account, and the post-state is exactly the
book with that order flipped to `EXECUTED` plus the bumped counters. -/
theorem execute_ok_inv (gs : GlobalState) (oid p now : Nat) (gs' : GlobalState)
    (h : execute_conditional_order gs oid p now = .ok gs') :
    ∃ i o acct, find_order gs.order_book.orders oid = (true, i) ∧
      gs.order_book.orders[i]? = some o ∧ o.order_id = oid ∧
      o.status = ORDER_STATUS_PENDING ∧ now ≤ o.expires_at ∧
      condition_met_check o.condition_type o.target_price p = true ∧
      o.min_amount_out ≤ calculate_swap_output o.amount_in ∧
      alist_get gs.user_accounts o.owner = some acct ∧
      gs' = { order_book :=
                { gs.order_book with
                    orders := gs.order_book.orders.set i
                      { o with status := ORDER_STATUS_EXECUTED, executed_at := now } }
              user_accounts :=
                alist_set gs.user_accounts o.owner
                  { acct with
                      total_trades := acct.total_trades + 1
                      total_volume := acct.total_volume + o.amount_in }
              trade_state :=
                { gs.trade_state with
                    total_trades := gs.trade_state.total_trades + 1
                    total_volume_apt := gs.trade_state.total_volume_apt + o.amount_in } } := by
  unfold execute_conditional_order at h
  split at h
  · simp at h
  · rename_i index hfo
    split at h
    · simp at h
    · rename_i o hgo
      split at h
      · simp at h
      · rename_i hst
        split at h
        · simp at h
        · rename_i hexp
          split at h
          · simp at h
          · rename_i hcond
            split at h
            · simp at h
            · rename_i hslip
              split at h
              · simp at h
              · rename_i acct hacct
                obtain ⟨q, hq, hqid⟩ := scan_from_zero_true _ _ _ _ hfo
                rw [hgo] at hq
                have hoq : o = q := by injection hq
                have hgs := (Except.ok.injEq _ _).mp h
                exact ⟨index, o, acct, hfo, hgo, hoq ▸ hqid, not_not.mp hst,
                       not_not.mp hexp, by simpa using hcond, Nat.not_lt.mp hslip,
                       hacct, hgs.symm⟩

end TradeApt

theorem getElem?_set_self_of_lt {α : Type} (xs : List α) (i : Nat) (y : α)
    (h : i < xs.length) : (xs.set i y)[i]? = some y := by
  rw [List.getElem?_set_self']
  simp [List.getElem?_eq_getElem h]

namespace TradeApt

-- ============================================================
-- Evolution of the first-match order status under the entry calls
-- ============================================================

/-- Appending an order to the book does not change the status observed for
an id that was already present. -/
theorem order_status_append (gs1 gs : GlobalState) (o : ConditionalOrder)
    (he : gs1.order_book.orders = gs.order_book.orders ++ [o]) (oid st : Nat)
    (h1 : order_status gs oid = some st) : order_status gs1 oid = some st := by
  rcases hfo : find_order gs.order_book.orders oid with ⟨found, j⟩
  cases found with
  | false => simp [order_status, hfo] at h1
  | true =>
      rcases hgo : gs.order_book.orders[j]? with _ | q
      · simp [order_status, hfo, hgo] at h1
      · simp only [order_status, hfo, hgo, Option.some.injEq] at h1
        have hj : j < gs.order_book.orders.length := (List.getElem?_eq_some.mp hgo).1
        have hfo' : find_order gs1.order_book.orders oid = (true, j) := by
          rw [he]
          exact scan_from_append _ _ _ _ _ _ hfo
        have hgo' : gs1.order_book.orders[j]? = some q := by
          rw [he, List.getElem?_append_left hj]
          exact hgo
        simp only [order_status, hfo', hgo', h1]

/-- Replacing the order at position `i` by one with the same id either
leaves the observed status of `oid` unchanged, or (when `oid` is the id at
position `i`) moves it from the old record's status to the new one's. -/
theorem order_status_set (gs1 gs : GlobalState) (i : Nat) (o y : ConditionalOrder)
    (hgo : gs.order_book.orders[i]? = some o)
    (hyid : y.order_id = o.order_id)
    (he : gs1.order_book.orders = gs.order_book.orders.set i y) (oid st : Nat)
    (h1 : order_status gs oid = some st) :
    order_status gs1 oid = some st ∨
      (st = o.status ∧ order_status gs1 oid = some y.status) := by
  rcases hfo : find_order gs.order_book.orders oid with ⟨found, j⟩
  cases found with
  | false => simp [order_status, hfo] at h1
  | true =>
      rcases hqo : gs.order_book.orders[j]? with _ | q
      · simp [order_status, hfo, hqo] at h1
      · simp only [order_status, hfo, hqo, Option.some.injEq] at h1
        have hfo' : find_order gs1.order_book.orders oid = (true, j) := by
          rw [he]
          unfold find_order at hfo ⊢
          rw [scan_from_set_congr _ _ _ i o y hgo hyid 0]
          exact hfo
        by_cases hij : j = i
        · subst hij
          have hoq : q = o := by rw [hgo] at hqo; injection hqo with hh; exact hh.symm
          have hj : j < gs.order_book.orders.length := (List.getElem?_eq_some.mp hqo).1
          have hgo' : gs1.order_book.orders[j]? = some y := by
            rw [he]
            exact getElem?_set_self_of_lt _ _ _ hj
          right
          refine ⟨by rw [← h1, hoq], ?_⟩
          simp only [order_status, hfo', hgo']
        · left
          have hgo' : gs1.order_book.orders[j]? = some q := by
            rw [he, List.getElem?_set_ne (fun hh => hij hh.symm)]
            exact hqo
          simp only [order_status, hfo', hgo', h1]

-- ============================================================
-- Terminal statuses reject cancel and execute
-- ============================================================

/-- When the order found for `oid` is not `PENDING`, `cancel_order` aborts
(with `E_UNAUTHORIZED` for a non-owner, `E_ORDER_NOT_FOUND` otherwise). -/
theorem cancel_fails_of_not_pending (gs : GlobalState) (u oid st : Nat)
    (hst : order_status gs oid = some st) (hterm : st ≠ ORDER_STATUS_PENDING) :
    ∃ e, cancel_order gs u oid = .error e := by
  rcases hfo : find_order gs.order_book.orders oid with ⟨found, index⟩
  cases found with
  | false => simp [order_status, hfo] at hst
  | true =>
      rcases hgo : gs.order_book.orders[index]? with _ | o
      · simp [order_status, hfo, hgo] at hst
      · simp only [order_status, hfo, hgo, Option.some.injEq] at hst
        have hnp : ¬ o.status = ORDER_STATUS_PENDING := by rw [hst]; exact hterm
        by_cases hown : o.owner = u
        · exact ⟨.abort E_ORDER_NOT_FOUND, by simp [cancel_order, hfo, hgo, hown, hnp]⟩
        · exact ⟨.abort E_UNAUTHORIZED, by simp [cancel_order, hfo, hgo, hown]⟩

/-- When the order found for `oid` is not `PENDING`,
`execute_conditional_order` aborts with `E_ORDER_NOT_FOUND` whatever price
and time are supplied. -/
theorem execute_fails_of_not_pending (gs : GlobalState) (oid p now st : Nat)
    (hst : order_status gs oid = some st) (hterm : st ≠ ORDER_STATUS_PENDING) :
    execute_conditional_order gs oid p now = .error (.abort E_ORDER_NOT_FOUND) := by
  rcases hfo : find_order gs.order_book.orders oid with ⟨found, index⟩
  cases found with
  | false => simp [order_status, hfo] at hst
  | true =>
      rcases hgo : gs.order_book.orders[index]? with _ | o
      · simp [order_status, hfo, hgo] at hst
      · simp only [order_status, hfo, hgo, Option.some.injEq] at hst
        have hnp : ¬ o.status = ORDER_STATUS_PENDING := by rw [hst]; exact hterm
        simp [execute_conditional_order, hfo, hgo, hnp]

end TradeApt

namespace TradeApt

/-- Across any single order call — committed or aborted — the status
observed for an id either stays what it was, or moves from `PENDING` to
`EXECUTED` (execute) or `CANCELLED` (cancel). -/
theorem order_status_step (gs : GlobalState) (op : OrderOp) (oid st st' : Nat)
    (h1 : order_status gs oid = some st)
    (h2 : order_status (applyOrderOp gs op) oid = some st') :
    st' = st ∨ (st = ORDER_STATUS_PENDING ∧
      (st' = ORDER_STATUS_EXECUTED ∨ st' = ORDER_STATUS_CANCELLED)) := by
  cases op with
  | create u tin tout ai mao ct tp ds now =>
      rcases hc : create_conditional_order gs u tin tout ai mao ct tp ds now with e | gs1
      · simp only [applyOrderOp, hc] at h2
        left; rw [h1] at h2; injection h2 with hh; exact hh.symm
      · simp only [applyOrderOp, hc] at h2
        obtain ⟨o, he⟩ := create_ok_orders _ _ _ _ _ _ _ _ _ _ _ hc
        have hkeep := order_status_append gs1 gs o he oid st h1
        left; rw [hkeep] at h2; injection h2 with hh; exact hh.symm
  | cancel u oid2 =>
      rcases hc : cancel_order gs u oid2 with e | gs1
      · simp only [applyOrderOp, hc] at h2
        left; rw [h1] at h2; injection h2 with hh; exact hh.symm
      · simp only [applyOrderOp, hc] at h2
        obtain ⟨i, o, hfo2, hgo2, hid2, hown2, hpend2, hgs⟩ := cancel_ok_inv _ _ _ _ hc
        have hset : gs1.order_book.orders =
            gs.order_book.orders.set i { o with status := ORDER_STATUS_CANCELLED } := by
          rw [hgs]
        rcases order_status_set gs1 gs i o
            { o with status := ORDER_STATUS_CANCELLED } hgo2 rfl hset oid st h1 with
          hkeep | ⟨hso, hst'⟩
        · left; rw [hkeep] at h2; injection h2 with hh; exact hh.symm
        · right
          refine ⟨by rw [hso]; exact hpend2, ?_⟩
          rw [hst'] at h2
          injection h2 with hh
          right; exact hh.symm
  | execute oid2 p now =>
      rcases hc : execute_conditional_order gs oid2 p now with e | gs1
      · simp only [applyOrderOp, hc] at h2
        left; rw [h1] at h2; injection h2 with hh; exact hh.symm
      · simp only [applyOrderOp, hc] at h2
        obtain ⟨i, o, acct, hfo2, hgo2, hid2, hpend2, hexp2, hcond2, hslip2, hacct2, hgs⟩ :=
          execute_ok_inv _ _ _ _ _ hc
        have hset : gs1.order_book.orders =
            gs.order_book.orders.set i
              { o with status := ORDER_STATUS_EXECUTED, executed_at := now } := by
          rw [hgs]
        rcases order_status_set gs1 gs i o
            { o with status := ORDER_STATUS_EXECUTED, executed_at := now } hgo2 rfl hset oid st h1 with
          hkeep | ⟨hso, hst'⟩
        · left; rw [hkeep] at h2; injection h2 with hh; exact hh.symm
        · right
          refine ⟨by rw [hso]; exact hpend2, ?_⟩
          rw [hst'] at h2
          injection h2 with hh
          left; exact hh.symm

/-- Claim C1: for every order in the `OrderBook`, the status observed for an
order id moves only from `PENDING` to exactly one of `EXECUTED` or
`CANCELLED`, and once the status is any non-`PENDING` value (`EXECUTED`,
`CANCELLED` or `EXPIRED`) both `cancel_order` and
`execute_conditional_order` abort with any arguments, leaving the whole
state — in particular the status field — unchanged. -/
theorem c1_status_monotonic :
    (∀ gs oid st, order_status gs oid = some st → st ≠ ORDER_STATUS_PENDING →
      (∀ u, ∃ e, cancel_order gs u oid = .error e) ∧
      (∀ p now, execute_conditional_order gs oid p now = .error (.abort E_ORDER_NOT_FOUND)) ∧
      (∀ u p now, applyOrderOp gs (.cancel u oid) = gs ∧
        applyOrderOp gs (.execute oid p now) = gs)) ∧
    (∀ gs op oid st st', order_status gs oid = some st →
      order_status (applyOrderOp gs op) oid = some st' →
      st' = st ∨ (st = ORDER_STATUS_PENDING ∧
        (st' = ORDER_STATUS_EXECUTED ∨ st' = ORDER_STATUS_CANCELLED))) := by
  constructor
  · intro gs oid st hst hterm
    refine ⟨fun u => cancel_fails_of_not_pending gs u oid st hst hterm,
            fun p now => execute_fails_of_not_pending gs oid p now st hst hterm, ?_⟩
    intro u p now
    constructor
    · obtain ⟨e, he⟩ := cancel_fails_of_not_pending gs u oid st hst hterm
      simp only [applyOrderOp, he]
    · have he := execute_fails_of_not_pending gs oid p now st hst hterm
      simp only [applyOrderOp, he]
  · intro gs op oid st st' h1 h2
    exact order_status_step gs op oid st st' h1 h2

/-- A concrete state whose single order (id 1, owned by address 1) is
already `EXECUTED`. -/
def gsExecutedDemo : GlobalState :=
  { order_book :=
      { orders :=
          [{ order_id := 1, owner := 1, token_in := "APT", token_out := "USDC",
             amount_in := 20, min_amount_out := 0, condition_type := CONDITION_PRICE_ABOVE,
             target_price := 100, status := ORDER_STATUS_EXECUTED, created_at := 0,
             expires_at := 1000, executed_at := 5 }]
        next_order_id := 2 }
    user_accounts := [(1, { orders := [1], total_trades := 1, total_volume := 20, created_at := 0 })]
    trade_state := { total_trades := 1, total_volume_apt := 20, total_orders_created := 1, admin := 1 } }

theorem c1_status_monotonic_witness :
    (∃ e, cancel_order gsExecutedDemo 1 1 = .error e) ∧
    execute_conditional_order gsExecutedDemo 1 850 6 = .error (.abort E_ORDER_NOT_FOUND) ∧
    applyOrderOp gsExecutedDemo (.cancel 1 1) = gsExecutedDemo ∧
    applyOrderOp gsExecutedDemo (.execute 1 850 6) = gsExecutedDemo := by
  have h := c1_status_monotonic.1 gsExecutedDemo 1 ORDER_STATUS_EXECUTED (by decide) (by decide)
  exact ⟨h.1 1, h.2.1 850 6, (h.2.2 1 850 6).1, (h.2.2 1 850 6).2⟩

end TradeApt

namespace TradeApt

/-- After a successful execution the order found for `order_id` reads
`EXECUTED`. -/
theorem order_status_after_execute (gs : GlobalState) (oid p now : Nat)
    (gs' : GlobalState) (h : execute_conditional_order gs oid p now = .ok gs') :
    order_status gs' oid = some ORDER_STATUS_EXECUTED := by
  obtain ⟨i, o, acct, hfo, hgo, hid, hpend, hexp, hcond, hslip, hacct, hgs⟩ :=
    execute_ok_inv _ _ _ _ _ h
  have horders : gs'.order_book.orders =
      gs.order_book.orders.set i
        { o with status := ORDER_STATUS_EXECUTED, executed_at := now } := by
    rw [hgs]
  have hlen : i < gs.order_book.orders.length := (List.getElem?_eq_some.mp hgo).1
  have hfo' : find_order gs'.order_book.orders oid = (true, i) := by
    unfold find_order at hfo ⊢
    rw [horders, scan_from_set_congr (fun q : ConditionalOrder => q.order_id) oid
      gs.order_book.orders i o
      { o with status := ORDER_STATUS_EXECUTED, executed_at := now } hgo rfl 0]
    exact hfo
  have hgo' : gs'.order_book.orders[i]? =
      some { o with status := ORDER_STATUS_EXECUTED, executed_at := now } := by
    rw [horders]
    exact getElem?_set_self_of_lt _ _ _ hlen
  simp only [order_status, hfo', hgo']

/-- Claim C2: once `execute_conditional_order` has succeeded for an order
id, an immediately repeated call for the same id aborts with
`E_ORDER_NOT_FOUND` (the record-not-found code), the order's status stays
`EXECUTED`, and the repeated call leaves the whole state — in particular
the owner's `UserAccount` counters and the protocol counters — untouched. -/
theorem c2_no_double_execution (gs : GlobalState) (oid p now p' now' : Nat)
    (gs' : GlobalState) (h : execute_conditional_order gs oid p now = .ok gs') :
    execute_conditional_order gs' oid p' now' = .error (.abort E_ORDER_NOT_FOUND) ∧
    order_status gs' oid = some ORDER_STATUS_EXECUTED ∧
    applyOrderOp gs' (.execute oid p' now') = gs' := by
  have hst := order_status_after_execute gs oid p now gs' h
  have herr := execute_fails_of_not_pending gs' oid p' now' ORDER_STATUS_EXECUTED hst
    (by decide)
  exact ⟨herr, hst, by simp only [applyOrderOp, herr]⟩

/-- The state `gsExecutedDemo` before its order was executed: the same
single order (id 1, `ABOVE 100`, amount 20) still `PENDING`, with zeroed
owner and protocol trade counters. -/
def gsPendingDemo : GlobalState :=
  { order_book :=
      { orders :=
          [{ order_id := 1, owner := 1, token_in := "APT", token_out := "USDC",
             amount_in := 20, min_amount_out := 0, condition_type := CONDITION_PRICE_ABOVE,
             target_price := 100, status := ORDER_STATUS_PENDING, created_at := 0,
             expires_at := 1000, executed_at := 0 }]
        next_order_id := 2 }
    user_accounts := [(1, { orders := [1], total_trades := 0, total_volume := 0, created_at := 0 })]
    trade_state := { total_trades := 0, total_volume_apt := 0, total_orders_created := 1, admin := 1 } }

theorem c2_no_double_execution_witness :
    execute_conditional_order gsPendingDemo 1 850 5 = .ok gsExecutedDemo ∧
    (execute_conditional_order gsExecutedDemo 1 850 6 = .error (.abort E_ORDER_NOT_FOUND) ∧
     order_status gsExecutedDemo 1 = some ORDER_STATUS_EXECUTED ∧
     applyOrderOp gsExecutedDemo (.execute 1 850 6) = gsExecutedDemo) := by
  constructor
  · rfl
  · exact c2_no_double_execution gsPendingDemo 1 850 5 850 6 gsExecutedDemo (by rfl)

end TradeApt

namespace TradeApt

/-- Claim C10: a successful `execute_conditional_order` call modifies only
the order record located for `order_id`, and within it only the `status`
and `executed_at` fields (the record update keeps every other field of the
old record); every other order record and the book's `next_order_id` are
unchanged. -/
theorem c10_execute_frame (gs : GlobalState) (oid p now : Nat) (gs' : GlobalState)
    (h : execute_conditional_order gs oid p now = .ok gs') :
    gs'.order_book.next_order_id = gs.order_book.next_order_id ∧
    ∃ i o, gs.order_book.orders[i]? = some o ∧ o.order_id = oid ∧
      gs'.order_book.orders = gs.order_book.orders.set i
        { o with status := ORDER_STATUS_EXECUTED, executed_at := now } ∧
      gs'.order_book.orders[i]? =
        some { o with status := ORDER_STATUS_EXECUTED, executed_at := now } ∧
      (∀ j, j ≠ i → gs'.order_book.orders[j]? = gs.order_book.orders[j]?) := by
  obtain ⟨i, o, acct, hfo, hgo, hid, hpend, hexp, hcond, hslip, hacct, hgs⟩ :=
    execute_ok_inv _ _ _ _ _ h
  have horders : gs'.order_book.orders =
      gs.order_book.orders.set i
        { o with status := ORDER_STATUS_EXECUTED, executed_at := now } := by
    rw [hgs]
  have hlen : i < gs.order_book.orders.length := (List.getElem?_eq_some.mp hgo).1
  refine ⟨by rw [hgs], i, o, hgo, hid, horders, ?_, ?_⟩
  · rw [horders]
    exact getElem?_set_self_of_lt _ _ _ hlen
  · intro j hj
    rw [horders, List.getElem?_set_ne (fun hh => hj hh.symm)]

theorem c10_execute_frame_witness :
    execute_conditional_order gsPendingDemo 1 850 5 = .ok gsExecutedDemo ∧
    (gsExecutedDemo.order_book.next_order_id = gsPendingDemo.order_book.next_order_id ∧
     ∃ i o, gsPendingDemo.order_book.orders[i]? = some o ∧ o.order_id = 1 ∧
       gsExecutedDemo.order_book.orders = gsPendingDemo.order_book.orders.set i
         { o with status := ORDER_STATUS_EXECUTED, executed_at := 5 } ∧
       gsExecutedDemo.order_book.orders[i]? =
         some { o with status := ORDER_STATUS_EXECUTED, executed_at := 5 } ∧
       (∀ j, j ≠ i →
         gsExecutedDemo.order_book.orders[j]? = gsPendingDemo.order_book.orders[j]?)) :=
  ⟨by rfl, c10_execute_frame gsPendingDemo 1 850 5 gsExecutedDemo (by rfl)⟩

-- ============================================================
-- Pending-order count
-- ============================================================

theorem pending_count_loop_eq :
    ∀ (orders : List ConditionalOrder) (c : Nat),
      pending_count_loop orders c =
        c + orders.countP (fun o => decide (o.status = ORDER_STATUS_PENDING)) := by
  intro orders
  induction orders with
  | nil => intro c; simp [pending_count_loop]
  | cons o rest ih =>
      intro c
      by_cases hst : o.status = ORDER_STATUS_PENDING
      · simp [pending_count_loop, hst, ih, List.countP_cons]
        omega
      · simp [pending_count_loop, hst, ih, List.countP_cons]

/-- Claim C9: after every sequence of `create_conditional_order`,
`cancel_order` and `execute_conditional_order` calls (successful or
aborted) starting from the freshly initialized protocol,
`get_pending_orders_count` equals the number of orders in the `OrderBook`
whose status is `PENDING`. -/
theorem c9_pending_count (admin : Nat) (ops : List OrderOp) :
    get_pending_orders_count (ops.foldl applyOrderOp (initGlobalState admin)) =
      (ops.foldl applyOrderOp (initGlobalState admin)).order_book.orders.countP
        (fun o => decide (o.status = ORDER_STATUS_PENDING)) := by
  unfold get_pending_orders_count
  rw [pending_count_loop_eq]
  omega

-- ============================================================
-- Condition evaluator
-- ============================================================

/-- Claim C6: the condition check shared by `execute_conditional_order` and
`trigger_alert` is inclusive on both bounds: BELOW is met iff
`observed ≤ target`, ABOVE iff `observed ≥ target`; at
`observed = target` both are met. -/
theorem c6_condition_inclusive (target observed : Nat) :
    (condition_met_check CONDITION_PRICE_BELOW target observed = true ↔
      observed ≤ target) ∧
    (condition_met_check CONDITION_PRICE_ABOVE target observed = true ↔
      target ≤ observed) ∧
    condition_met_check CONDITION_PRICE_BELOW target target = true ∧
    condition_met_check CONDITION_PRICE_ABOVE target target = true := by
  refine ⟨?_, ?_, ?_, ?_⟩ <;>
    simp [condition_met_check, CONDITION_PRICE_BELOW, CONDITION_PRICE_ABOVE, ge_iff_le]

/-- A state holding a single `PENDING` order whose `condition_type` is
`IMMEDIATE` (such an order cannot be created through
`create_conditional_order`, which rejects IMMEDIATE, but the claim
presupposes one). -/
def gsImmediateDemo : GlobalState :=
  { order_book :=
      { orders :=
          [{ order_id := 1, owner := 1, token_in := "APT", token_out := "USDC",
             amount_in := 20, min_amount_out := 0, condition_type := CONDITION_IMMEDIATE,
             target_price := 1000, status := ORDER_STATUS_PENDING, created_at := 0,
             expires_at := 1000, executed_at := 0 }]
        next_order_id := 2 }
    user_accounts := [(1, { orders := [1], total_trades := 0, total_volume := 0, created_at := 0 })]
    trade_state := { total_trades := 0, total_volume_apt := 0, total_orders_created := 1, admin := 1 } }

/-- Claim C4 counterexample: for an `IMMEDIATE` order in `PENDING` status
the condition evaluation is NOT always true — at observed price 999 against
target 1000 the check is false and `execute_conditional_order` aborts with
`E_INVALID_CONDITION` on account of the price comparison. -/
theorem c4_immediate_counterexample :
    condition_met_check CONDITION_IMMEDIATE 1000 999 = false ∧
    order_status gsImmediateDemo 1 = some ORDER_STATUS_PENDING ∧
    execute_conditional_order gsImmediateDemo 1 999 0 =
      .error (.abort E_INVALID_CONDITION) := by
  refine ⟨by decide, by decide, by rfl⟩

/-- Claim C4 amended: for `condition_type = IMMEDIATE` the condition check
in `execute_conditional_order` falls into the ABOVE branch of the
`if`/`else`, so it is true iff `observed ≥ target` — not always true.
(Independently, `create_conditional_order` rejects IMMEDIATE outright.) -/
theorem c4_immediate_amended (target observed : Nat) :
    condition_met_check CONDITION_IMMEDIATE target observed =
      decide (target ≤ observed) ∧
    (∀ gs u tin tout ai mao tp ds now, 0 < ai →
      create_conditional_order gs u tin tout ai mao CONDITION_IMMEDIATE tp ds now =
        .error (.abort E_INVALID_CONDITION)) := by
  constructor
  · rfl
  · intro gs u tin tout ai mao tp ds now hai
    unfold create_conditional_order
    rw [if_neg (not_not_intro hai), if_pos (by decide)]

theorem c4_immediate_amended_witness :
    condition_met_check CONDITION_IMMEDIATE 1000 999 = decide (1000 ≤ 999) ∧
    create_conditional_order (initGlobalState 1) 1 "APT" "USDC" 20 0
        CONDITION_IMMEDIATE 1000 100 0 = .error (.abort E_INVALID_CONDITION) :=
  ⟨(c4_immediate_amended 1000 999).1,
   (c4_immediate_amended 1000 999).2 (initGlobalState 1) 1 "APT" "USDC" 20 0 1000 100 0
     (by decide)⟩

end TradeApt

namespace TradeApt

/-- Modelled from the spec: `trade_apt.move` defines no `EQ` condition
code.  The spec's §4.2 and §4.4 treat `EQ` as a condition type distinct
from `ABOVE` (code 1) and `BELOW` (code 2); the module's only other code,
`IMMEDIATE`, is 3.  Every concrete choice of code outside `{1, 2}` behaves
identically in `create_alert`; this model fixes 4. -/
def CONDITION_EQ : Nat := 4

/-- Claim C3 counterexample: `create_alert` does NOT succeed for an `EQ`
condition type — any code other than `ABOVE` and `BELOW` (so in particular
any code playing the role of `EQ`) aborts with `E_INVALID_CONDITION`. -/
theorem c3_create_alert_counterexample :
    CONDITION_EQ ≠ CONDITION_PRICE_ABOVE ∧ CONDITION_EQ ≠ CONDITION_PRICE_BELOW ∧
    create_alert ([] : AlertsState) 1 "BTC" CONDITION_EQ 100 0 =
      .error (.abort E_INVALID_CONDITION) := by
  refine ⟨by decide, by decide, by rfl⟩

/-- Claim C3 amended: `create_alert` succeeds exactly for
`condition_type ∈ {ABOVE, BELOW}`, appending a new active alert (owned by
the caller, with the requested token, condition and target) to the caller's
registry; it aborts with `E_INVALID_CONDITION` for every other condition
type — including `EQ`, which the module does not support. -/
theorem c3_create_alert_amended (st : AlertsState) (u : Nat) (tok : String)
    (ct tp now : Nat) :
    ((ct = CONDITION_PRICE_ABOVE ∨ ct = CONDITION_PRICE_BELOW) →
      ∃ st' ua', create_alert st u tok ct tp now = .ok st' ∧
        alist_get st' u = some ua' ∧
        ∃ a : PriceAlert,
          ua'.alerts =
            (match alist_get st u with
             | some ua => ua.alerts
             | none => []) ++ [a] ∧
          a.owner = u ∧ a.token = tok ∧ a.condition_type = ct ∧
          a.target_price = tp ∧ a.is_active = true) ∧
    (¬ (ct = CONDITION_PRICE_ABOVE ∨ ct = CONDITION_PRICE_BELOW) →
      create_alert st u tok ct tp now = .error (.abort E_INVALID_CONDITION)) := by
  constructor
  · intro hok
    rcases hua : alist_get st u with _ | ua
    · have hget : alist_get (alist_set st u (⟨[], 1⟩ : UserAlerts)) u
          = some (⟨[], 1⟩ : UserAlerts) := alist_get_set_self _ _ _
      refine ⟨alist_set (alist_set st u ⟨[], 1⟩) u
          ⟨[] ++ [⟨1, u, tok, ct, tp, true, now, 0⟩], 1 + 1⟩,
        _, ?_, alist_get_set_self _ _ _,
        (⟨1, u, tok, ct, tp, true, now, 0⟩ : PriceAlert),
        rfl, rfl, rfl, rfl, rfl, rfl⟩
      unfold create_alert
      rw [if_neg (not_not_intro hok)]
      simp only [hua, hget]
    · refine ⟨alist_set st u
          ⟨ua.alerts ++ [⟨ua.next_alert_id, u, tok, ct, tp, true, now, 0⟩],
           ua.next_alert_id + 1⟩,
        _, ?_, alist_get_set_self _ _ _,
        (⟨ua.next_alert_id, u, tok, ct, tp, true, now, 0⟩ : PriceAlert),
        rfl, rfl, rfl, rfl, rfl, rfl⟩
      unfold create_alert
      rw [if_neg (not_not_intro hok)]
      simp only [hua]
  · intro hbad
    unfold create_alert
    rw [if_pos hbad]

theorem c3_create_alert_amended_witness :
    (∃ st' ua', create_alert ([] : AlertsState) 1 "BTC" CONDITION_PRICE_ABOVE 100 0 = .ok st' ∧
      alist_get st' 1 = some ua' ∧
      ∃ a : PriceAlert,
        ua'.alerts =
          (match alist_get ([] : AlertsState) 1 with
           | some ua => ua.alerts
           | none => []) ++ [a] ∧
        a.owner = 1 ∧ a.token = "BTC" ∧ a.condition_type = CONDITION_PRICE_ABOVE ∧
        a.target_price = 100 ∧ a.is_active = true) ∧
    create_alert ([] : AlertsState) 1 "BTC" CONDITION_EQ 100 0 =
      .error (.abort E_INVALID_CONDITION) :=
  ⟨(c3_create_alert_amended [] 1 "BTC" CONDITION_PRICE_ABOVE 100 0).1 (by decide),
   (c3_create_alert_amended [] 1 "BTC" CONDITION_EQ 100 0).2 (by decide)⟩

end TradeApt

theorem alist_set_get_self {β : Type} :
    ∀ (l : List (Nat × β)) (a : Nat) (v : β), alist_get l a = some v →
      alist_set l a v = l := by
  intro l
  induction l with
  | nil => intro a v h; simp [alist_get] at h
  | cons p rest ih =>
      intro a v h
      obtain ⟨k, w⟩ := p
      by_cases hk : k = a
      · subst hk
        simp [alist_get] at h
        simp [alist_set, h]
      · simp [alist_get, hk] at h
        simp [alist_set, hk, ih a v h]

namespace TradeApt

/-- Inversion of a successful `cancel_alert`: the caller's own registry
holds an alert with the given id (necessarily owned by the caller), and the
only change is that alert's `is_active` flag being cleared. -/
theorem cancel_alert_ok_inv (st : AlertsState) (u id : Nat) (st' : AlertsState)
    (h : cancel_alert st u id = .ok st') :
    ∃ ua i alert, alist_get st u = some ua ∧
      find_alert ua.alerts id = (true, i) ∧
      ua.alerts[i]? = some alert ∧ alert.alert_id = id ∧ alert.owner = u ∧
      st' = alist_set st u
        { ua with alerts := ua.alerts.set i { alert with is_active := false } } := by
  unfold cancel_alert at h
  split at h
  · simp at h
  · rename_i ua hua
    split at h
    · simp at h
    · rename_i index hfa
      split at h
      · simp at h
      · rename_i alert hget
        split at h
        · simp at h
        · rename_i hown
          obtain ⟨q, hq, hqid⟩ := scan_from_zero_true _ _ _ _ hfa
          rw [hget] at hq
          have haq : alert = q := by injection hq
          have hgs := (Except.ok.injEq _ _).mp h
          exact ⟨ua, index, alert, hua, hfa, hget, haq ▸ hqid, not_not.mp hown,
                 hgs.symm⟩

/-- Claim C5 amended: `cancel_alert` searches only the caller's own
registry.  Under the registry-ownership invariant (which holds in every
reachable state) the `E_UNAUTHORIZED` branch is unreachable; a caller who
does not own an alert never reaches it and gets `E_ORDER_NOT_FOUND` when
their own registry has no alert with that id; and a successful cancel is
idempotent — repeating it succeeds and returns the same state, with
`is_active` still `false`. -/
theorem c5_cancel_alert_amended :
    (∀ st : AlertsState, AlertsInv st → ∀ u id,
      cancel_alert st u id ≠ .error (.abort E_UNAUTHORIZED)) ∧
    (∀ (st : AlertsState) (u id : Nat) (ua : UserAlerts), alist_get st u = some ua →
      (find_alert ua.alerts id).1 = false →
      cancel_alert st u id = .error (.abort E_ORDER_NOT_FOUND)) ∧
    (∀ (st : AlertsState) (u id : Nat) (st' : AlertsState),
      cancel_alert st u id = .ok st' → cancel_alert st' u id = .ok st') := by
  refine ⟨?_, ?_, ?_⟩
  · intro st hinv u id hcontra
    rcases hua : alist_get st u with _ | ua
    · simp [cancel_alert, hua] at hcontra
    · rcases hfa : find_alert ua.alerts id with ⟨found, idx⟩
      cases found with
      | false =>
          simp [cancel_alert, hua, hfa, E_ORDER_NOT_FOUND, E_UNAUTHORIZED] at hcontra
      | true =>
          rcases hget : ua.alerts[idx]? with _ | alert
          · simp [cancel_alert, hua, hfa, hget, E_ORDER_NOT_FOUND, E_UNAUTHORIZED]
              at hcontra
          · have hown : alert.owner = u :=
              hinv u ua hua alert (List.getElem?_mem hget)
            simp [cancel_alert, hua, hfa, hget, hown] at hcontra
  · intro st u id ua hua hfalse
    rcases hfa : find_alert ua.alerts id with ⟨found, idx⟩
    rw [hfa] at hfalse
    cases found with
    | false => simp [cancel_alert, hua, hfa]
    | true => simp at hfalse
  · intro st u id st' h
    obtain ⟨ua, i, alert, hua, hfa, hget, hid, hown, hst'⟩ :=
      cancel_alert_ok_inv st u id st' h
    have hlen : i < ua.alerts.length := (List.getElem?_eq_some.mp hget).1
    have hua' : alist_get st' u =
        some { ua with alerts := ua.alerts.set i { alert with is_active := false } } := by
      rw [hst']
      exact alist_get_set_self _ _ _
    have hfa' : find_alert (ua.alerts.set i { alert with is_active := false }) id
        = (true, i) := by
      unfold find_alert at hfa ⊢
      rw [scan_from_set_congr (fun a : PriceAlert => a.alert_id) id ua.alerts i alert
        { alert with is_active := false } hget rfl 0]
      exact hfa
    have hget' : (ua.alerts.set i { alert with is_active := false })[i]? =
        some { alert with is_active := false } := by
      rw [getElem?_set_self_of_lt _ _ _ (by simpa using hlen)]
    have hsetset : (ua.alerts.set i { alert with is_active := false }).set i
        { alert with is_active := false } = ua.alerts.set i { alert with is_active := false } :=
      list_set_self _ _ _ hget'
    simp only [cancel_alert, hua', hfa', hget']
    rw [if_neg (not_not_intro (show alert.owner = u from hown))]
    rw [hsetset]
    rw [alist_set_get_self st' u _ hua']

/-- A two-user alert state: address 1 owns alert id 1 (active); address 2
has an empty registry. -/
def alertsDemo : AlertsState :=
  [(1, ⟨[⟨1, 1, "BTC", CONDITION_PRICE_ABOVE, 100, true, 0, 0⟩], 2⟩),
   (2, ⟨[], 1⟩)]

/-- Claim C5 counterexample: caller 2 is not the owner of alert 1 (owner is
address 1), yet `cancel_alert(2, 1)` aborts with `E_ORDER_NOT_FOUND` — not
with `E_UNAUTHORIZED` as the claim demands — because the lookup runs over
caller 2's own (empty) registry. -/
theorem c5_cancel_alert_counterexample :
    (∃ ua a, alist_get alertsDemo 1 = some ua ∧ ua.alerts = [a] ∧
      a.alert_id = 1 ∧ a.owner = 1) ∧
    (2 : Nat) ≠ 1 ∧
    cancel_alert alertsDemo 2 1 = .error (.abort E_ORDER_NOT_FOUND) ∧
    E_ORDER_NOT_FOUND ≠ E_UNAUTHORIZED := by
  exact ⟨⟨_, _, rfl, rfl, rfl, rfl⟩, by decide, by rfl, by decide⟩

/-- The state `alertsDemo` after owner 1 cancels alert 1. -/
def alertsDemoCancelled : AlertsState :=
  [(1, ⟨[⟨1, 1, "BTC", CONDITION_PRICE_ABOVE, 100, false, 0, 0⟩], 2⟩),
   (2, ⟨[], 1⟩)]

theorem alertsDemo_inv : AlertsInv alertsDemo := by
  intro a ua h al hal
  by_cases h1 : (1 : Nat) = a
  · subst h1
    simp [alertsDemo, alist_get] at h
    subst h
    simp at hal
    subst hal
    rfl
  · by_cases h2 : (2 : Nat) = a
    · subst h2
      simp [alertsDemo, alist_get, h1] at h
      subst h
      simp at hal
    · simp [alertsDemo, alist_get, h1, h2] at h

theorem c5_cancel_alert_amended_witness :
    cancel_alert alertsDemo 1 1 ≠ .error (.abort E_UNAUTHORIZED) ∧
    cancel_alert alertsDemo 2 5 = .error (.abort E_ORDER_NOT_FOUND) ∧
    cancel_alert alertsDemoCancelled 1 1 = .ok alertsDemoCancelled :=
  ⟨c5_cancel_alert_amended.1 alertsDemo alertsDemo_inv 1 1,
   c5_cancel_alert_amended.2.1 alertsDemo 2 5 ⟨[], 1⟩ (by rfl) (by decide),
   c5_cancel_alert_amended.2.2 alertsDemo 1 1 alertsDemoCancelled (by rfl)⟩

end TradeApt

namespace PriceOracle

/-- The oracle state produced by the authorized keeper writing APT at chain
time 0 (so the stored `timestamp` is 0). -/
def oracleStaleDemo : OracleConfig :=
  ⟨1, [1], [⟨"APT", ⟨850000000, 1, 0, 8⟩, [], true⟩]⟩

/-- Claim C8 counterexample: a cache entry written at chain time 0 exists
for APT and satisfies `now - last_update = 0 ≤ 60`, yet `get_price_safe`
reports `is_fresh = false`, because the code uses `timestamp == 0` as its
absent-entry test.  The state is reachable: it is exactly the result of an
authorized `update_price` call at time 0 on the initialized oracle. -/
theorem c8_counterexample :
    update_price (initOracleConfig 1) 1 "APT" 850000000 1 0 = .ok oracleStaleDemo ∧
    has_feed oracleStaleDemo.price_cache "APT" = true ∧
    (0 : Nat) - 0 ≤ MAX_PRICE_AGE ∧
    get_price_safe oracleStaleDemo "APT" 0 = (850000000, false) := by
  refine ⟨by rfl, by rfl, by decide, by rfl⟩

/-- Claim C8 amended: `get_price_safe` returns `is_fresh = true` iff a
cache entry for the token exists, its `last_update` is nonzero, and
`now - last_update ≤ 60`; the price and the freshness flag both come from
the single `get_price` read of the same entry, and `is_price_fresh` agrees
with the flag.  The hypothesis `hts` confines the statement to states
where no stored timestamp lies in the future, where the model's truncated
subtraction matches the Move `u64` subtraction (which would abort). -/
theorem c8_get_price_safe_amended (config : OracleConfig) (token : String) (now : Nat)
    (hts : ∀ f ∈ config.price_cache, f.price_data.timestamp ≤ now) :
    ((get_price_safe config token now).2 = true ↔
      ∃ i feed, find_feed config.price_cache token = (true, i) ∧
        config.price_cache[i]? = some feed ∧
        feed.price_data.timestamp ≠ 0 ∧
        now - feed.price_data.timestamp ≤ MAX_PRICE_AGE) ∧
    (get_price_safe config token now).1 = (get_price config token).1 ∧
    is_price_fresh config token now = (get_price_safe config token now).2 := by
  refine ⟨?_, rfl, rfl⟩
  rcases hf : find_feed config.price_cache token with ⟨found, idx⟩
  cases found with
  | false =>
      have hgp : get_price config token = (0, 0, 0) := by
        simp only [get_price, hf]
      constructor
      · intro hfresh
        simp [get_price_safe, hgp] at hfresh
      · rintro ⟨i, feed, hfi, _, _, _⟩
        simp at hfi
  | true =>
      obtain ⟨feed, hget, htok⟩ := scan_from_zero_true _ _ _ _ hf
      have hgp : get_price config token =
          (feed.price_data.price, feed.price_data.confidence,
           feed.price_data.timestamp) := by
        simp only [get_price, hf, hget]
      by_cases hts0 : feed.price_data.timestamp = 0
      · constructor
        · intro hfresh
          simp [get_price_safe, hgp, hts0] at hfresh
        · rintro ⟨i, feed', hfi, hget', hne, _⟩
          injection hfi with hb hn
          subst hn
          rw [hget] at hget'
          injection hget' with hfe
          exact absurd (hfe ▸ hts0) hne
      · constructor
        · intro hfresh
          refine ⟨idx, feed, rfl, hget, hts0, ?_⟩
          simp [get_price_safe, hgp, hts0] at hfresh
          omega
        · rintro ⟨i, feed', hfi, hget', hne, hage⟩
          injection hfi with hb hn
          subst hn
          rw [hget] at hget'
          injection hget' with hfe
          subst hfe
          simp [get_price_safe, hgp, hts0]
          omega

/-- The oracle state after the keeper wrote APT at time 10. -/
def oracleFreshDemo : OracleConfig :=
  ⟨1, [1], [⟨"APT", ⟨850000000, 1, 10, 8⟩, [], true⟩]⟩

theorem c8_get_price_safe_amended_witness :
    ((get_price_safe oracleFreshDemo "APT" 20).2 = true ↔
      ∃ i feed, find_feed oracleFreshDemo.price_cache "APT" = (true, i) ∧
        oracleFreshDemo.price_cache[i]? = some feed ∧
        feed.price_data.timestamp ≠ 0 ∧
        20 - feed.price_data.timestamp ≤ MAX_PRICE_AGE) ∧
    (get_price_safe oracleFreshDemo "APT" 20).1 = (get_price oracleFreshDemo "APT").1 ∧
    is_price_fresh oracleFreshDemo "APT" 20 = (get_price_safe oracleFreshDemo "APT" 20).2 :=
  c8_get_price_safe_amended oracleFreshDemo "APT" 20 (by decide)

end PriceOracle

/-- When the scan fails on `xs`, appending an element with the target key
makes it succeed. -/
theorem scan_from_not_found_append {α κ : Type} [DecidableEq κ] (key : α → κ)
    (target : κ) :
    ∀ (xs : List α) (k m : Nat) (y : α), scan_from key target xs k = (false, m) →
      key y = target → (scan_from key target (xs ++ [y]) k).1 = true := by
  intro xs
  induction xs with
  | nil => intro k m y _ hy; simp [scan_from, hy]
  | cons x rest ih =>
      intro k m y h hy
      by_cases hx : key x = target
      · simp [scan_from, hx] at h
      · simp only [scan_from, hx] at h
        simp only [List.cons_append, scan_from, if_neg hx]
        exact ih (k + 1) m y h hy

namespace PriceOracle

/-- Inversion of a successful `update_price`: the keeper was authorized,
the price positive, the keeper list untouched, a feed for the token is now
present, and every previously present token is still present. -/
theorem update_price_ok_inv (config : OracleConfig) (k : Nat) (token : String)
    (price conf now : Nat) (config' : OracleConfig)
    (h : update_price config k token price conf now = .ok config') :
    is_keeper config.keepers k = true ∧ 0 < price ∧
    config'.keepers = config.keepers ∧
    has_feed config'.price_cache token = true ∧
    (∀ t, has_feed config.price_cache t = true → has_feed config'.price_cache t = true) := by
  unfold update_price at h
  split at h
  · simp at h
  · rename_i hkeep
    split at h
    · simp at h
    · rename_i hpos
      rcases hff : find_feed config.price_cache token with ⟨fnd, idx⟩
      rw [hff] at h
      cases fnd with
      | true =>
          rcases hget : config.price_cache[idx]? with _ | feed
          · simp only [hget] at h
            simp at h
          · simp only [hget] at h
            obtain ⟨q, hq, hqtok⟩ := scan_from_zero_true _ _ _ _ hff
            rw [hget] at hq
            have hfq : feed = q := by injection hq
            have hgs := (Except.ok.injEq _ _).mp h
            have hcache : config'.price_cache =
                config.price_cache.set idx
                  { feed with price_data := ⟨price, conf, now, 8⟩ } := by
              rw [← hgs]
            have hcongr : ∀ t', find_feed config'.price_cache t' =
                find_feed config.price_cache t' := by
              intro t'
              unfold find_feed
              rw [hcache]
              exact scan_from_set_congr (fun f : PriceFeed => f.token) t'
                config.price_cache idx feed
                { feed with price_data := ⟨price, conf, now, 8⟩ } hget rfl 0
            refine ⟨not_not.mp hkeep, not_not.mp hpos, by rw [← hgs], ?_, ?_⟩
            · unfold has_feed
              rw [hcongr, hff]
            · intro t ht
              unfold has_feed at ht ⊢
              rw [hcongr]
              exact ht
      | false =>
          have hgs := (Except.ok.injEq _ _).mp h
          have hcache : config'.price_cache =
              config.price_cache ++
                [{ token := token, price_data := ⟨price, conf, now, 8⟩,
                   pyth_feed_id := [], is_active := true }] := by
            rw [← hgs]
          refine ⟨not_not.mp hkeep, not_not.mp hpos, by rw [← hgs], ?_, ?_⟩
          · unfold has_feed find_feed
            rw [hcache]
            exact scan_from_not_found_append _ _ _ _ _ _ hff rfl
          · intro t ht
            unfold has_feed find_feed at ht ⊢
            rw [hcache]
            rcases hsc : scan_from (fun f : PriceFeed => f.token) t
                config.price_cache 0 with ⟨f2, j⟩
            cases f2 with
            | false => rw [hsc] at ht; simp at ht
            | true =>
                rw [scan_from_append _ _ _ _ _ _ hsc]
    

/-- Inversion of a successful `batch_loop` run: every element's price was
positive, the keeper was authorized (when the batch was nonempty), all
previously present tokens survive, and every element's token now has a
feed. -/
theorem batch_loop_ok_inv (k now : Nat) :
    ∀ (l : List ((String × Nat) × Nat)) (config config' : OracleConfig),
      batch_loop k now config l = .ok config' →
      (∀ x ∈ l, 0 < x.1.2) ∧
      (l ≠ [] → is_keeper config.keepers k = true) ∧
      (∀ t, has_feed config.price_cache t = true → has_feed config'.price_cache t = true) ∧
      (∀ x ∈ l, has_feed config'.price_cache x.1.1 = true) := by
  intro l
  induction l with
  | nil =>
      intro config config' h
      simp only [batch_loop, Except.ok.injEq] at h
      subst h
      exact ⟨by simp, by simp, fun t ht => ht, by simp⟩
  | cons hd rest ih =>
      intro config config' h
      obtain ⟨⟨t0, p0⟩, c0⟩ := hd
      rcases hu : update_price config k t0 p0 c0 now with e | c1
      · simp only [batch_loop, hu] at h
        simp at h
      · simp only [batch_loop, hu] at h
        obtain ⟨hkeep, hpos, hkeepers, hhas, hpres⟩ := update_price_ok_inv _ _ _ _ _ _ _ hu
        obtain ⟨ih1, ih2, ih3, ih4⟩ := ih c1 config' h
        refine ⟨?_, ?_, ?_, ?_⟩
        · intro x hx
          rcases List.mem_cons.mp hx with hx | hx
          · subst hx; exact hpos
          · exact ih1 x hx
        · intro _
          exact hkeep
        · intro t ht
          exact ih3 t (hpres t ht)
        · intro x hx
          rcases List.mem_cons.mp hx with hx | hx
          · subst hx
            exact ih3 t0 hhas
          · exact ih4 x hx

/-- With equal lengths, every token of the batch occurs as the token
component of some zipped element. -/
theorem zip_covers_tokens :
    ∀ (tokens : List String) (prices confidences : List Nat),
      tokens.length = prices.length → tokens.length = confidences.length →
      ∀ t ∈ tokens, ∃ x ∈ (tokens.zip prices).zip confidences, x.1.1 = t := by
  intro tokens
  induction tokens with
  | nil => intro prices confidences _ _ t ht; simp at ht
  | cons t0 ts ih =>
      intro prices confidences hp hc t ht
      rcases prices with _ | ⟨p0, ps⟩
      · simp at hp
      · rcases confidences with _ | ⟨c0, cs⟩
        · simp at hc
        · rcases List.mem_cons.mp ht with ht | ht
          · exact ⟨((t0, p0), c0), by simp, by rw [ht]⟩
          · obtain ⟨x, hx, hxt⟩ := ih ps cs (by simpa using hp) (by simpa using hc) t ht
            exact ⟨x, by simp [hx], hxt⟩

/-- With equal lengths, every price of the batch occurs as the price
component of some zipped element. -/
theorem zip_covers_prices :
    ∀ (tokens : List String) (prices confidences : List Nat),
      tokens.length = prices.length → tokens.length = confidences.length →
      ∀ p ∈ prices, ∃ x ∈ (tokens.zip prices).zip confidences, x.1.2 = p := by
  intro tokens
  induction tokens with
  | nil =>
      intro prices confidences hp _ p hpmem
      rcases prices with _ | ⟨p0, ps⟩
      · simp at hpmem
      · simp at hp
  | cons t0 ts ih =>
      intro prices confidences hp hc p hpmem
      rcases prices with _ | ⟨p0, ps⟩
      · simp at hp
      · rcases confidences with _ | ⟨c0, cs⟩
        · simp at hc
        · rcases List.mem_cons.mp hpmem with hpm | hpm
          · exact ⟨((t0, p0), c0), by simp, by rw [hpm]⟩
          · obtain ⟨x, hx, hxp⟩ := ih ps cs (by simpa using hp) (by simpa using hc) p hpm
            exact ⟨x, by simp [hx], hxp⟩

/-- Claim C7: `batch_update_prices` aborts with `E_INVALID_PRICE` when the
three arrays differ in length, and is all-or-nothing: an unauthorized
keeper (on a nonempty batch) or any zero price aborts the whole call — and
a Move abort discards every write, so no cache entry is touched — while on
success every listed token has a cache entry. -/
theorem c7_batch_update_prices (config : OracleConfig) (k : Nat)
    (tokens : List String) (prices confidences : List Nat) (now : Nat) :
    ((tokens.length ≠ prices.length ∨ tokens.length ≠ confidences.length) →
      batch_update_prices config k tokens prices confidences now =
        .error (.abort E_INVALID_PRICE)) ∧
    (∀ t ts, tokens = t :: ts → is_keeper config.keepers k = false →
      ∃ e, batch_update_prices config k tokens prices confidences now = .error e) ∧
    (0 ∈ prices → tokens.length = prices.length →
      ∃ e, batch_update_prices config k tokens prices confidences now = .error e) ∧
    (∀ config', batch_update_prices config k tokens prices confidences now = .ok config' →
      ∀ t ∈ tokens, has_feed config'.price_cache t = true) := by
  refine ⟨?_, ?_, ?_, ?_⟩
  · intro hmis
    unfold batch_update_prices
    rcases hmis with hm | hm
    · rw [if_pos hm]
    · by_cases h1 : tokens.length = prices.length
      · rw [if_neg (not_not_intro h1), if_pos hm]
      · rw [if_pos h1]
  · intro t ts htts hkf
    rcases hb : batch_update_prices config k tokens prices confidences now with e | c'
    · exact ⟨e, rfl⟩
    · exfalso
      unfold batch_update_prices at hb
      split at hb
      · simp at hb
      · split at hb
        · simp at hb
        · rename_i hlp hlc
          have hinv := batch_loop_ok_inv k now _ config c' hb
          subst htts
          rcases prices with _ | ⟨p0, ps⟩
          · simp at hlp
          · rcases confidences with _ | ⟨c0, cs⟩
            · simp at hlc
            · have := hinv.2.1 (by simp)
              rw [hkf] at this
              exact Bool.false_ne_true this
  · intro hzero hlen
    rcases hb : batch_update_prices config k tokens prices confidences now with e | c'
    · exact ⟨e, rfl⟩
    · exfalso
      unfold batch_update_prices at hb
      split at hb
      · simp at hb
      · split at hb
        · simp at hb
        · rename_i hlp hlc
          have hinv := batch_loop_ok_inv k now _ config c' hb
          obtain ⟨x, hx, hxp⟩ :=
            zip_covers_prices tokens prices confidences hlen (not_not.mp hlc) 0 hzero
          have := hinv.1 x hx
          rw [hxp] at this
          exact Nat.lt_irrefl 0 this
  · intro config' hok t ht
    unfold batch_update_prices at hok
    split at hok
    · simp at hok
    · split at hok
      · simp at hok
      · rename_i hlp hlc
        have hinv := batch_loop_ok_inv k now _ config config' hok
        obtain ⟨x, hx, hxt⟩ :=
          zip_covers_tokens tokens prices confidences (not_not.mp hlp) (not_not.mp hlc) t ht
        have := hinv.2.2.2 x hx
        rw [hxt] at this
        exact this

/-- Result of the successful demo batch: APT then BTC written at time 7 by
keeper 1 on the initialized oracle. -/
def oracleBatchDemo : OracleConfig :=
  ⟨1, [1], [⟨"APT", ⟨850, 1, 7, 8⟩, [], true⟩, ⟨"BTC", ⟨42, 1, 7, 8⟩, [], true⟩]⟩

theorem c7_batch_update_prices_witness :
    batch_update_prices (initOracleConfig 1) 1 ["APT", "BTC"] [850, 42] [1, 1] 7 =
      .ok oracleBatchDemo ∧
    has_feed oracleBatchDemo.price_cache "APT" = true ∧
    has_feed oracleBatchDemo.price_cache "BTC" = true ∧
    batch_update_prices (initOracleConfig 1) 1 ["APT"] [] [] 7 =
      .error (.abort E_INVALID_PRICE) ∧
    (∃ e, batch_update_prices (initOracleConfig 1) 2 ["APT"] [850] [1] 7 = .error e) ∧
    (∃ e, batch_update_prices (initOracleConfig 1) 1 ["APT"] [0] [1] 7 = .error e) := by
  refine ⟨by rfl, ?_, ?_, ?_, ?_, ?_⟩
  · exact (c7_batch_update_prices (initOracleConfig 1) 1 ["APT", "BTC"] [850, 42] [1, 1] 7).2.2.2
      oracleBatchDemo (by rfl) "APT" (by simp)
  · exact (c7_batch_update_prices (initOracleConfig 1) 1 ["APT", "BTC"] [850, 42] [1, 1] 7).2.2.2
      oracleBatchDemo (by rfl) "BTC" (by simp)
  · exact (c7_batch_update_prices (initOracleConfig 1) 1 ["APT"] [] [] 7).1 (by simp)
  · exact (c7_batch_update_prices (initOracleConfig 1) 2 ["APT"] [850] [1] 7).2.1 "APT" []
      rfl (by rfl)
  · exact (c7_batch_update_prices (initOracleConfig 1) 1 ["APT"] [0] [1] 7).2.2.1
      (by simp) (by simp)

end PriceOracle
